import Mathlib

/-!
Verification of the distributed task coordination layer of the
sprite-mobile repository.

The embedding covers the task registry and per-node queue library
(`distributed-tasks.ts`: `createTask`, `updateTask`, `getTask`,
`getTaskQueue`, `updateTaskQueue`, `addTaskToQueue`, `getNextTask`,
`completeCurrentTask`) and the coordinator route handlers
(`routes/distributed-tasks.ts`: `createTask`, `distributeTasks`,
`checkForTasks`, `completeTask`), as pure functions over a model of the
shared S3 object store.  The store is a pair of association lists, one
keyed by task id (the `tasks/{id}.json` objects) and one keyed by sprite
name (the `task-queues/{name}.json` objects).  Wall-clock timestamps
(`new Date().toISOString()`) are injected `Nat` parameters, generated
ids (`randomUUID`, chat session ids) are injected strings, and the
fire-and-forget peer wake is an injected boolean that the handlers
ignore, exactly as the source discards the promise with `.catch`.
JavaScript truthiness tests on strings (`!summary`,
`if (queue.currentTask)`) are embedded by `strTruthy`, which is false on
both the missing value and the empty string.
-/

/-- Task lifecycle status.  The TypeScript union on `DistributedTask`
lists `pending | in_progress | completed | failed | abandoned`; the spec's
data model additionally includes `cancelled`, which the cancel route
(dispatched in `routes/api.ts` but whose handler module is not among the
sources) assigns. -/
inductive TaskStatus where
  | pending
  | in_progress
  | completed
  | failed
  | abandoned
  | cancelled
deriving DecidableEq

/-- A terminal status: the task has left `in_progress` for good. -/
def TaskStatus.isTerminal : TaskStatus → Bool
  | .completed => true
  | .failed => true
  | .abandoned => true
  | .cancelled => true
  | .pending => false
  | .in_progress => false

/-- The `result` field of a task: `{summary, success, error?}`. -/
structure TaskResult where
  summary : String
  success : Bool
  error : Option String
deriving DecidableEq

/-- The `DistributedTask` record persisted at `tasks/{id}.json`. -/
structure DistributedTask where
  id : String
  assignedTo : String
  assignedBy : String
  status : TaskStatus
  title : String
  description : String
  createdAt : Nat
  startedAt : Option Nat
  completedAt : Option Nat
  sessionId : Option String
  result : Option TaskResult
deriving DecidableEq

/-- The `TaskQueue` record persisted at `task-queues/{spriteName}.json`. -/
structure TaskQueue where
  spriteName : String
  queuedTasks : List String
  currentTask : Option String
  lastUpdated : Nat
deriving DecidableEq

/-- The shared blob store: task records keyed by id, queue records keyed
by sprite name. -/
structure Store where
  tasks : List (String × DistributedTask)
  queues : List (String × TaskQueue)
deriving DecidableEq

/-- Lookup in an association list (the store's `GetObjectCommand`). -/
def getA {α : Type} : List (String × α) → String → Option α
  | [], _ => none
  | (k', v) :: rest, k => if k' = k then some v else getA rest k

/-- Unconditional overwrite in an association list (the store's
`PutObjectCommand`): replaces the binding if the key is present,
appends it otherwise. -/
def setA {α : Type} : List (String × α) → String → α → List (String × α)
  | [], k, v => [(k, v)]
  | (k', v') :: rest, k, v => if k' = k then (k, v) :: rest else (k', v') :: setA rest k v

/-- JavaScript truthiness of an optional string: `null`/`undefined` and
the empty string are falsy, every other string is truthy. -/
def strTruthy : Option String → Bool
  | none => false
  | some v => !(v == "")

/-- A JSON value as it may appear in a request body field (enough to
model the route-level `success !== false` test). -/
inductive JsonValue where
  | bool (b : Bool)
  | str (v : String)
  | num (n : Int)
  | null
  | undef
deriving DecidableEq

/-- The strict-inequality test `success !== false` applied by the
complete route: false exactly on the JSON boolean `false`. -/
def isNotFalse : JsonValue → Bool
  | .bool false => false
  | _ => true

/-- Named failures surfaced by the library and the routes. -/
inductive TaskError where
  | notFound
  | noCurrentTask
  | noPeers
  | emptyDescriptions
deriving DecidableEq

/-- A shallow partial update of a task record, as passed to
`updateTask(taskId, updates)`: `some` marks a field named in the
partial object. -/
structure TaskUpdate where
  id : Option String
  assignedTo : Option String
  assignedBy : Option String
  status : Option TaskStatus
  title : Option String
  description : Option String
  createdAt : Option Nat
  startedAt : Option Nat
  completedAt : Option Nat
  sessionId : Option String
  result : Option TaskResult
deriving DecidableEq

/-- The empty partial update (no field named). -/
def noUpdate : TaskUpdate :=
  { id := none, assignedTo := none, assignedBy := none, status := none,
    title := none, description := none, createdAt := none, startedAt := none,
    completedAt := none, sessionId := none, result := none }

/-- Override for optional task fields: a field named in the update wins,
otherwise the stored value is kept. -/
def ovr {α : Type} : Option α → Option α → Option α
  | some v, _ => some v
  | none, d => d

/-- The spread merge `{ ...task, ...updates }` of `updateTask`. -/
def mergeTask (t : DistributedTask) (u : TaskUpdate) : DistributedTask :=
  { id := u.id.getD t.id
    assignedTo := u.assignedTo.getD t.assignedTo
    assignedBy := u.assignedBy.getD t.assignedBy
    status := u.status.getD t.status
    title := u.title.getD t.title
    description := u.description.getD t.description
    createdAt := u.createdAt.getD t.createdAt
    startedAt := ovr u.startedAt t.startedAt
    completedAt := ovr u.completedAt t.completedAt
    sessionId := ovr u.sessionId t.sessionId
    result := ovr u.result t.result }

/-- The partial update written by `completeCurrentTask`: terminal status
chosen by the success flag, `completedAt`, and the result object. -/
def completeUpdate (summary : String) (success : Bool) (error : Option String)
    (now : Nat) : TaskUpdate :=
  { noUpdate with
    status := some (if success then .completed else .failed),
    completedAt := some now,
    result := some { summary := summary, success := success, error := error } }

namespace Tasks

/-- Library `getTask(taskId)`: fetch `tasks/{id}.json`, `null` when absent. -/
def getTask (s : Store) (taskId : String) : Option DistributedTask :=
  getA s.tasks taskId

/-- Library `getTaskQueue(spriteName)`: fetch `task-queues/{name}.json`,
returning a fresh empty queue when the object is absent. -/
def getTaskQueue (s : Store) (spriteName : String) (now : Nat) : TaskQueue :=
  (getA s.queues spriteName).getD
    { spriteName := spriteName, queuedTasks := [], currentTask := none, lastUpdated := now }

/-- Library `updateTaskQueue(queue)`: refresh `lastUpdated` and write the record
at the key named by the record's own `spriteName` field. -/
def updateTaskQueue (s : Store) (q : TaskQueue) (now : Nat) : Store :=
  { s with queues := setA s.queues q.spriteName { q with lastUpdated := now } }

/-- Library `addTaskToQueue(spriteName, taskId)`: push at the tail of
`queuedTasks` and persist. -/
def addTaskToQueue (s : Store) (spriteName taskId : String) (now : Nat) : Store :=
  let q := getTaskQueue s spriteName now
  updateTaskQueue s { q with queuedTasks := q.queuedTasks ++ [taskId] } now

/-- Library `getNextTask(spriteName)`: `null` on an empty backlog; otherwise
shift the head id, set it as `currentTask`, persist the queue, and
return the head's task record (which may itself be `null`). -/
def getNextTask (s : Store) (spriteName : String) (now : Nat) :
    Store × Option DistributedTask :=
  let q := getTaskQueue s spriteName now
  match q.queuedTasks with
  | [] => (s, none)
  | nextTaskId :: restIds =>
    let s' := updateTaskQueue s
      { q with queuedTasks := restIds, currentTask := some nextTaskId } now
    (s', getTask s' nextTaskId)

/-- Library `updateTask(taskId, updates)`: read, shallow-merge, write back;
throws `Task not found` (before any write) when the record is absent. -/
def updateTask (s : Store) (taskId : String) (u : TaskUpdate) : Except TaskError Store :=
  match getTask s taskId with
  | none => .error .notFound
  | some t => .ok { s with tasks := setA s.tasks taskId (mergeTask t u) }

/-- Library `createTask(task)`: build the full record with a fresh id,
`status = pending` and `createdAt = now`, persist it, then append its id
to the target sprite's queue. -/
def createTask (s : Store) (assignedTo assignedBy title description : String)
    (newId : String) (now : Nat) : Store × DistributedTask :=
  let fullTask : DistributedTask :=
    { id := newId, assignedTo := assignedTo, assignedBy := assignedBy,
      status := .pending, title := title, description := description,
      createdAt := now, startedAt := none, completedAt := none,
      sessionId := none, result := none }
  let s1 : Store := { s with tasks := setA s.tasks newId fullTask }
  (addTaskToQueue s1 assignedTo newId now, fullTask)

/-- Library `completeCurrentTask(spriteName, summary, success, error)`: throws
`No current task to complete` when `currentTask` is falsy (no store
write happens on that path); otherwise marks the current task
`completed`/`failed` with `completedAt` and `result`, then clears
`currentTask` and persists the queue. -/
def completeCurrentTask (s : Store) (spriteName summary : String) (success : Bool)
    (error : Option String) (now : Nat) : Except TaskError Store :=
  let q := getTaskQueue s spriteName now
  if strTruthy q.currentTask then
    match updateTask s (q.currentTask.getD "") (completeUpdate summary success error now) with
    | .error e => .error e
    | .ok s1 => .ok (updateTaskQueue s1 { q with currentTask := none } now)
  else
    .error .noCurrentTask

end Tasks

namespace Api

/-- Result of the `checkForTasks` route. -/
inductive CheckResult where
  | alreadyWorking (currentTask : String)
  | noPending
  | started (task : DistributedTask) (sessionId : String)
deriving DecidableEq

/-- Route `checkForTasks`: with a truthy `currentTask` it returns the
"Already working on a task" result carrying that id and touches nothing;
otherwise it dequeues, and when a task record came back it marks it
`in_progress` with `startedAt = now`, creates a chat session (the
injected `sid`), stores the session id, and reports the dequeued record.
A `notFound` escape from `updateTask` propagates (it is unreachable from
a well-formed dequeue). -/
def checkForTasks (s : Store) (self : String) (now : Nat) (sid : String) :
    Except TaskError (Store × CheckResult) :=
  let q := Tasks.getTaskQueue s self now
  if strTruthy q.currentTask then
    .ok (s, .alreadyWorking (q.currentTask.getD ""))
  else
    let p := Tasks.getNextTask s self now
    match p.2 with
    | none => .ok (p.1, .noPending)
    | some nextTask =>
      match Tasks.updateTask p.1 nextTask.id
        { noUpdate with status := some .in_progress, startedAt := some now } with
      | .error e => .error e
      | .ok s2 =>
        match Tasks.updateTask s2 nextTask.id { noUpdate with sessionId := some sid } with
        | .error e => .error e
        | .ok s3 => .ok (s3, .started nextTask sid)

/-- Request body of the create route. -/
structure CreateBody where
  assignedTo : Option String
  title : Option String
  description : Option String
deriving DecidableEq

/-- Response of the create route. -/
inductive CreateResponse where
  | missingFields
  | created (task : DistributedTask)
deriving DecidableEq

/-- Route `createTask`: rejects when any of `assignedTo`, `title`,
`description` is falsy; otherwise creates the task via the library and
fires a best-effort wake whose outcome (`wakeSucceeds`) the handler
discards with `.catch`, so it cannot influence the response. -/
def createTask (s : Store) (body : CreateBody) (self newId : String) (now : Nat)
    (_wakeSucceeds : Bool) : Store × CreateResponse :=
  if strTruthy body.assignedTo && strTruthy body.title && strTruthy body.description then
    let p := Tasks.createTask s (body.assignedTo.getD "") self
      (body.title.getD "") (body.description.getD "") newId now
    (p.1, .created p.2)
  else
    (s, .missingFields)

/-- One round of the `distributeTasks` loop: description `i` goes to
`avail[i % avail.length]` and a task is created for it with id
`idGen i`; the per-task wake is fire-and-forget and dropped. -/
def distributeLoop (s : Store) (descs : List (String × String)) (i : Nat)
    (avail : List String) (assignedBy : String) (idGen : Nat → String) (now : Nat) :
    Store × List DistributedTask :=
  match descs with
  | [] => (s, [])
  | (title, description) :: rest =>
    let assignedTo := avail.getD (i % avail.length) ""
    let p := Tasks.createTask s assignedTo assignedBy title description (idGen i) now
    let p' := distributeLoop p.1 rest (i + 1) avail assignedBy idGen now
    (p'.1, p.2 :: p'.2)

/-- Route helper `summarizeDistribution(tasks)`: per-assignee counts accumulated into
a record, keys in first-occurrence order as a JavaScript object keeps
them. -/
def bump : List (String × Nat) → String → List (String × Nat)
  | [], k => [(k, 1)]
  | (k', v) :: rest, k => if k' = k then (k', v + 1) :: rest else (k', v) :: bump rest k

/-- Fold of `bump` over the created tasks' assignees. -/
def summarizeDistribution (ts : List DistributedTask) : List (String × Nat) :=
  ts.foldl (fun acc t => bump acc t.assignedTo) []

/-- Route `distributeTasks`: rejects an empty description list, computes
the peer list as the discovered sprites minus self, rejects when that
list is empty ("No other sprites available in network"), and otherwise
assigns descriptions round-robin, returning the created tasks and the
distribution summary. -/
def distributeTasks (s : Store) (descs : List (String × String)) (self : String)
    (sprites : List String) (idGen : Nat → String) (now : Nat) :
    Except TaskError (Store × List DistributedTask × List (String × Nat)) :=
  if descs.isEmpty then .error .emptyDescriptions
  else
    let avail := sprites.filter (fun h => !(h == self))
    if avail.length = 0 then .error .noPeers
    else
      let p := distributeLoop s descs 0 avail self idGen now
      .ok (p.1, p.2, summarizeDistribution p.2)

/-- Request body of the complete route. -/
structure CompleteBody where
  summary : Option String
  success : JsonValue
  error : Option String
deriving DecidableEq

/-- Response of the complete route. -/
inductive CompleteResponse where
  | missingSummary
  | failedWith (e : TaskError)
  | completedNoMore
  | completedStartedNext (task : DistributedTask) (sessionId : String)
deriving DecidableEq

/-- Route `completeTask`: rejects a falsy `summary`; completes the
current task with the flag `success !== false`; on a thrown
`NoCurrentTask` the catch clause reports the error with the store
untouched.  On success it immediately chains a dequeue, marking the
next task `in_progress` and giving it a session, so a non-empty backlog
never idles. -/
def completeTask (s : Store) (self : String) (body : CompleteBody) (now : Nat)
    (sid : String) : Store × CompleteResponse :=
  if strTruthy body.summary then
    match Tasks.completeCurrentTask s self (body.summary.getD "")
        (isNotFalse body.success) body.error now with
    | .error e => (s, .failedWith e)
    | .ok s1 =>
      let p := Tasks.getNextTask s1 self now
      match p.2 with
      | none => (p.1, .completedNoMore)
      | some nextTask =>
        match Tasks.updateTask p.1 nextTask.id
          { noUpdate with status := some .in_progress, startedAt := some now } with
        | .error e => (p.1, .failedWith e)
        | .ok s3 =>
          match Tasks.updateTask s3 nextTask.id { noUpdate with sessionId := some sid } with
          | .error e => (s3, .failedWith e)
          | .ok s4 => (s4, .completedStartedNext nextTask sid)
  else
    (s, .missingSummary)

/-- Modelled from the spec: the per-queue purge that cancellation
applies to every node queue — clears the slot that holds the cancelled
id and removes the id from the backlog. -/
def cancelQueueFix (taskId : String) (q : TaskQueue) : TaskQueue :=
  { q with
    queuedTasks := q.queuedTasks.filter (fun x => !(x == taskId)),
    currentTask := if q.currentTask = some taskId then none else q.currentTask }

/-- Modelled from the spec: the `cancelTask(id)` coordinator operation.
Its handler is dispatched from `POST /api/distributed-tasks/:id/cancel`
in `routes/api.ts`, but the module implementing it is not among the
sources.  Spec: "sets status `cancelled`; if the task is some node's
`currentTask`, clears it; if still queued anywhere, removes it"; an
unknown id is rejected not-found as for any update. -/
def cancelTask (s : Store) (taskId : String) : Except TaskError Store :=
  match Tasks.getTask s taskId with
  | none => .error .notFound
  | some t =>
    let s1 : Store := { s with tasks := setA s.tasks taskId { t with status := .cancelled } }
    .ok { s1 with queues := s1.queues.map (fun kv => (kv.1, cancelQueueFix taskId kv.2)) }

/-- Modelled from the spec: the `reassignTask(id, newAssignee)`
coordinator operation.  Its handler is dispatched from
`POST /api/distributed-tasks/:id/reassign` in `routes/api.ts`, but the
module implementing it is not among the sources.  Spec: "removes the
task from the old assignee's queue or current slot, resets status to
`pending` (timestamps for the abandoned attempt are left as a
historical record, not erased), enqueues onto `newAssignee`'s queue,
updates `assignedTo`, sends a new wake notification" (the wake is
fire-and-forget and does not touch the store). -/
def reassignTask (s : Store) (taskId newAssignee : String) (now : Nat) :
    Except TaskError Store :=
  match Tasks.getTask s taskId with
  | none => .error .notFound
  | some t =>
    let oldQ := Tasks.getTaskQueue s t.assignedTo now
    let s1 := Tasks.updateTaskQueue s
      { oldQ with
        queuedTasks := oldQ.queuedTasks.filter (fun x => !(x == taskId)),
        currentTask := if oldQ.currentTask = some taskId then none else oldQ.currentTask } now
    let t1 : DistributedTask := { t with status := .pending, assignedTo := newAssignee }
    let s2 : Store := { s1 with tasks := setA s1.tasks taskId t1 }
    .ok (Tasks.addTaskToQueue s2 newAssignee taskId now)

end Api

/-! ### Store lemmas -/

/-- Reading back the key just written. -/
theorem getA_setA_self {α : Type} (l : List (String × α)) (k : String) (v : α) :
    getA (setA l k v) k = some v := by
  induction l with
  | nil => simp [getA, setA]
  | cons kv rest ih =>
    obtain ⟨k', v'⟩ := kv
    by_cases h : k' = k <;> simp [getA, setA, h, ih]

/-- A write leaves every other key unchanged. -/
theorem getA_setA_ne {α : Type} (l : List (String × α)) (k k' : String) (v : α)
    (h : k' ≠ k) : getA (setA l k v) k' = getA l k' := by
  induction l with
  | nil => simp [getA, setA, Ne.symm h]
  | cons kv rest ih =>
    obtain ⟨k₀, v₀⟩ := kv
    by_cases h0 : k₀ = k
    · subst h0
      simp [getA, setA, Ne.symm h]
    · simp [getA, setA, h0, ih]

/-- Lookup through a value-wise map of the association list. -/
theorem getA_map {α β : Type} (f : α → β) (l : List (String × α)) (k : String) :
    getA (l.map (fun kv => (kv.1, f kv.2))) k = (getA l k).map f := by
  induction l with
  | nil => simp [getA]
  | cons kv rest ih =>
    obtain ⟨k', v⟩ := kv
    by_cases h : k' = k <;> simp [getA, h, ih]

/-- The backlog of a node's queue, as `getTaskQueue` resolves it; the
clock only affects the fresh queue's `lastUpdated`, so the backlog is
clock-independent. -/
def queuedOf (s : Store) (n : String) : List String :=
  (Tasks.getTaskQueue s n 0).queuedTasks

/-- The current-task slot of a node's queue, clock-independent. -/
def currentOf (s : Store) (n : String) : Option String :=
  (Tasks.getTaskQueue s n 0).currentTask

/-- The `spriteName` field of a node's stored queue record,
clock-independent. -/
def nameOf (s : Store) (n : String) : String :=
  (Tasks.getTaskQueue s n 0).spriteName

theorem getTaskQueue_queuedTasks (s : Store) (n : String) (now : Nat) :
    (Tasks.getTaskQueue s n now).queuedTasks = queuedOf s n := by
  cases h : getA s.queues n <;> simp [Tasks.getTaskQueue, queuedOf, h]

theorem getTaskQueue_currentTask (s : Store) (n : String) (now : Nat) :
    (Tasks.getTaskQueue s n now).currentTask = currentOf s n := by
  cases h : getA s.queues n <;> simp [Tasks.getTaskQueue, currentOf, h]

theorem getTaskQueue_spriteName (s : Store) (n : String) (now : Nat) :
    (Tasks.getTaskQueue s n now).spriteName = nameOf s n := by
  cases h : getA s.queues n <;> simp [Tasks.getTaskQueue, nameOf, h]

theorem queuedOf_congr {s s' : Store} {k : String}
    (h : getA s'.queues k = getA s.queues k) : queuedOf s' k = queuedOf s k := by
  simp [queuedOf, Tasks.getTaskQueue, h]

theorem currentOf_congr {s s' : Store} {k : String}
    (h : getA s'.queues k = getA s.queues k) : currentOf s' k = currentOf s k := by
  simp [currentOf, Tasks.getTaskQueue, h]

theorem nameOf_congr {s s' : Store} {k : String}
    (h : getA s'.queues k = getA s.queues k) : nameOf s' k = nameOf s k := by
  simp [nameOf, Tasks.getTaskQueue, h]

theorem updateTaskQueue_tasks (s : Store) (q : TaskQueue) (now : Nat) :
    (Tasks.updateTaskQueue s q now).tasks = s.tasks := rfl

theorem updateTaskQueue_getA_other (s : Store) (q : TaskQueue) (now : Nat) (k : String)
    (hk : k ≠ q.spriteName) :
    getA (Tasks.updateTaskQueue s q now).queues k = getA s.queues k := by
  simp [Tasks.updateTaskQueue, getA_setA_ne _ _ _ _ hk]

theorem addTaskToQueue_tasks (s : Store) (n taskId : String) (now : Nat) :
    (Tasks.addTaskToQueue s n taskId now).tasks = s.tasks := rfl

/-- Enqueue appends at the tail of the target node's backlog. -/
theorem addTaskToQueue_queuedOf (s : Store) (n taskId : String) (now : Nat)
    (hn : nameOf s n = n) :
    queuedOf (Tasks.addTaskToQueue s n taskId now) n = queuedOf s n ++ [taskId] := by
  cases hg : getA s.queues n with
  | none =>
    simp [Tasks.addTaskToQueue, Tasks.getTaskQueue, Tasks.updateTaskQueue, queuedOf, hg,
      getA_setA_self]
  | some q0 =>
    have hs : q0.spriteName = n := by simpa [nameOf, Tasks.getTaskQueue, hg] using hn
    simp [Tasks.addTaskToQueue, Tasks.getTaskQueue, Tasks.updateTaskQueue, queuedOf, hg, hs,
      getA_setA_self]

/-- Enqueue does not touch the current-task slot. -/
theorem addTaskToQueue_currentOf (s : Store) (n taskId : String) (now : Nat)
    (hn : nameOf s n = n) :
    currentOf (Tasks.addTaskToQueue s n taskId now) n = currentOf s n := by
  cases hg : getA s.queues n with
  | none =>
    simp [Tasks.addTaskToQueue, Tasks.getTaskQueue, Tasks.updateTaskQueue, currentOf, hg,
      getA_setA_self]
  | some q0 =>
    have hs : q0.spriteName = n := by simpa [nameOf, Tasks.getTaskQueue, hg] using hn
    simp [Tasks.addTaskToQueue, Tasks.getTaskQueue, Tasks.updateTaskQueue, currentOf, hg, hs,
      getA_setA_self]

theorem addTaskToQueue_nameOf (s : Store) (n taskId : String) (now : Nat)
    (hn : nameOf s n = n) :
    nameOf (Tasks.addTaskToQueue s n taskId now) n = n := by
  cases hg : getA s.queues n with
  | none =>
    simp [Tasks.addTaskToQueue, Tasks.getTaskQueue, Tasks.updateTaskQueue, nameOf, hg,
      getA_setA_self]
  | some q0 =>
    have hs : q0.spriteName = n := by simpa [nameOf, Tasks.getTaskQueue, hg] using hn
    simp [Tasks.addTaskToQueue, Tasks.getTaskQueue, Tasks.updateTaskQueue, nameOf, hg, hs,
      getA_setA_self]

/-- Enqueue onto one node leaves every other node's queue object
untouched. -/
theorem addTaskToQueue_getA_other (s : Store) (n taskId k : String) (now : Nat)
    (hn : nameOf s n = n) (hk : k ≠ n) :
    getA (Tasks.addTaskToQueue s n taskId now).queues k = getA s.queues k := by
  have hs : (Tasks.getTaskQueue s n now).spriteName = n := by
    rw [getTaskQueue_spriteName]; exact hn
  unfold Tasks.addTaskToQueue
  rw [updateTaskQueue_getA_other]
  simpa [hs] using hk

/-- Dequeue on an empty backlog returns `null` and performs no write. -/
theorem getNextTask_empty (s : Store) (n : String) (now : Nat)
    (hq : queuedOf s n = []) :
    Tasks.getNextTask s n now = (s, none) := by
  cases hg : getA s.queues n with
  | none => simp [Tasks.getNextTask, Tasks.getTaskQueue, hg]
  | some q0 =>
    have h0 : q0.queuedTasks = [] := by simpa [queuedOf, Tasks.getTaskQueue, hg] using hq
    simp [Tasks.getNextTask, Tasks.getTaskQueue, hg, h0]

/-- Dequeue on a non-empty backlog: removes exactly the head, persists
it as `currentTask`, and returns the head's registry record; the task
registry itself is untouched. -/
theorem getNextTask_cons (s : Store) (n h : String) (t : List String) (now : Nat)
    (hn : nameOf s n = n) (hq : queuedOf s n = h :: t) :
    (Tasks.getNextTask s n now).2 = Tasks.getTask s h ∧
    (Tasks.getNextTask s n now).1.tasks = s.tasks ∧
    queuedOf (Tasks.getNextTask s n now).1 n = t ∧
    currentOf (Tasks.getNextTask s n now).1 n = some h ∧
    nameOf (Tasks.getNextTask s n now).1 n = n := by
  cases hg : getA s.queues n with
  | none => simp [queuedOf, Tasks.getTaskQueue, hg] at hq
  | some q0 =>
    have hs : q0.spriteName = n := by simpa [nameOf, Tasks.getTaskQueue, hg] using hn
    have hqt : q0.queuedTasks = h :: t := by simpa [queuedOf, Tasks.getTaskQueue, hg] using hq
    simp [Tasks.getNextTask, Tasks.getTaskQueue, Tasks.updateTaskQueue, Tasks.getTask,
      queuedOf, currentOf, nameOf, hg, hqt, hs, getA_setA_self]

theorem updateTask_notFound (s : Store) (taskId : String) (u : TaskUpdate)
    (h : Tasks.getTask s taskId = none) :
    Tasks.updateTask s taskId u = .error .notFound := by
  simp [Tasks.updateTask, h]

theorem updateTask_found (s : Store) (taskId : String) (u : TaskUpdate)
    (t : DistributedTask) (h : Tasks.getTask s taskId = some t) :
    Tasks.updateTask s taskId u
      = .ok { s with tasks := setA s.tasks taskId (mergeTask t u) } := by
  simp [Tasks.updateTask, h]

/-- Success path of `completeCurrentTask`: the current task's record is
overwritten with the completion merge, the backlog survives untouched,
and the current-task slot is cleared. -/
theorem completeCurrentTask_ok (s : Store) (n summary : String) (success : Bool)
    (error : Option String) (now : Nat) (cur : String) (t : DistributedTask)
    (hn : nameOf s n = n) (hcur : currentOf s n = some cur) (hne : cur ≠ "")
    (ht : Tasks.getTask s cur = some t) :
    ∃ s', Tasks.completeCurrentTask s n summary success error now = .ok s' ∧
      s'.tasks = setA s.tasks cur (mergeTask t (completeUpdate summary success error now)) ∧
      queuedOf s' n = queuedOf s n ∧
      currentOf s' n = none ∧
      nameOf s' n = n := by
  cases hg : getA s.queues n with
  | none => simp [currentOf, Tasks.getTaskQueue, hg] at hcur
  | some q0 =>
    have hs : q0.spriteName = n := by simpa [nameOf, Tasks.getTaskQueue, hg] using hn
    have hc : q0.currentTask = some cur := by
      simpa [currentOf, Tasks.getTaskQueue, hg] using hcur
    have heq : Tasks.completeCurrentTask s n summary success error now
        = .ok (Tasks.updateTaskQueue
            { s with tasks := setA s.tasks cur (mergeTask t (completeUpdate summary success error now)) }
            { q0 with currentTask := none } now) := by
      simp [Tasks.completeCurrentTask, Tasks.getTaskQueue, hg, hc, strTruthy, hne,
        Tasks.updateTask, ht]
    refine ⟨_, heq, ?_, ?_, ?_, ?_⟩
    · rfl
    · simp [Tasks.updateTaskQueue, queuedOf, Tasks.getTaskQueue, hs, getA_setA_self, hg]
    · simp [Tasks.updateTaskQueue, currentOf, Tasks.getTaskQueue, hs, getA_setA_self]
    · simp [Tasks.updateTaskQueue, nameOf, Tasks.getTaskQueue, hs, getA_setA_self]

/-- Thrown path of `completeCurrentTask`: a falsy `currentTask` raises
before any store write. -/
theorem completeCurrentTask_noCurrent (s : Store) (n summary : String) (success : Bool)
    (error : Option String) (now : Nat)
    (hcur : strTruthy (currentOf s n) = false) :
    Tasks.completeCurrentTask s n summary success error now = .error .noCurrentTask := by
  have h : strTruthy (Tasks.getTaskQueue s n now).currentTask = false := by
    rw [getTaskQueue_currentTask]; exact hcur
  simp [Tasks.completeCurrentTask, h]

/-- A sequence of enqueues onto one node's queue, in list order. -/
def enqueueAll (s : Store) (n : String) (ids : List String) (now : Nat) : Store :=
  ids.foldl (fun st taskId => Tasks.addTaskToQueue st n taskId now) s

/-- The ids handed out by `k` successive dequeues against one node's
queue (each dequeue is a `getNextTask`, which always hands out the
backlog head). -/
def drainIds (n : String) (now : Nat) : Store → Nat → List String
  | _, 0 => []
  | s, k + 1 =>
    match queuedOf s n with
    | [] => []
    | taskId :: _ => taskId :: drainIds n now (Tasks.getNextTask s n now).1 k

theorem enqueueAll_queuedOf (n : String) (now : Nat) (ids : List String) :
    ∀ s : Store, nameOf s n = n →
      queuedOf (enqueueAll s n ids now) n = queuedOf s n ++ ids ∧
      nameOf (enqueueAll s n ids now) n = n := by
  induction ids with
  | nil => intro s hn; simp [enqueueAll, hn]
  | cons a as ih =>
    intro s hn
    have h1 := addTaskToQueue_queuedOf s n a now hn
    have h2 := addTaskToQueue_nameOf s n a now hn
    have h3 := ih (Tasks.addTaskToQueue s n a now) h2
    have hfold : enqueueAll s n (a :: as) now
        = enqueueAll (Tasks.addTaskToQueue s n a now) n as now := rfl
    rw [hfold, h3.1, h1]
    exact ⟨by simp, h3.2⟩

theorem drainIds_take (n : String) (now : Nat) :
    ∀ (k : Nat) (s : Store), nameOf s n = n →
      drainIds n now s k = (queuedOf s n).take k := by
  intro k
  induction k with
  | zero => intro s _; simp [drainIds]
  | succ k ih =>
    intro s hn
    cases hq : queuedOf s n with
    | nil => simp [drainIds, hq]
    | cons h t =>
      have hx := getNextTask_cons s n h t now hn hq
      have := ih (Tasks.getNextTask s n now).1 hx.2.2.2.2
      simp [drainIds, hq, this, hx.2.2.1]

theorem isNotFalse_eq_false_iff (v : JsonValue) :
    isNotFalse v = false ↔ v = .bool false := by
  cases v with
  | bool b => cases b <;> simp [isNotFalse]
  | str w => simp [isNotFalse]
  | num n => simp [isNotFalse]
  | null => simp [isNotFalse]
  | undef => simp [isNotFalse]

/-! ### Claim theorems -/

/-- C1: for every node whose queue has `currentTask` set (to a task id,
which is never the empty string, ids being UUIDs — the route's
JavaScript truthiness test treats `""` as unset), `checkForTasks` is
idempotent: every call, at any clock value and with any session-id
supply, returns the "Already working on a task" result carrying that
`currentTask` id, performs no dequeue, and returns the store — task
registry and every node queue — exactly unchanged; hence repeated calls
return the same result. -/
theorem checkForTasks_alreadyWorking (s : Store) (self sid cur : String) (now : Nat)
    (hcur : currentOf s self = some cur) (hne : cur ≠ "") :
    Api.checkForTasks s self now sid = .ok (s, .alreadyWorking cur) := by
  cases hg : getA s.queues self with
  | none => simp [currentOf, Tasks.getTaskQueue, hg] at hcur
  | some q0 =>
    have hc : q0.currentTask = some cur := by
      simpa [currentOf, Tasks.getTaskQueue, hg] using hcur
    simp [Api.checkForTasks, Tasks.getTaskQueue, hg, hc, strTruthy, hne]

/-- C2: `completeCurrentTask` on a node with no current task throws the
`NoCurrentTask` rejection before any store write, and the route's catch
clause returns it with the store unmodified; on a node whose
`currentTask` is set (to the non-empty id of a stored task), it sets
that task's status to the terminal `completed`/`failed` value, sets
`completedAt` and `result`, and clears the node's `currentTask`. -/
theorem completeCurrentTask_spec (s : Store) (n summary : String) (success : Bool)
    (error : Option String) (now : Nat) (sid : String) (body : Api.CompleteBody)
    (hsum : strTruthy body.summary = true) :
    (currentOf s n = none →
      Tasks.completeCurrentTask s n summary success error now = .error .noCurrentTask ∧
      Api.completeTask s n body now sid = (s, .failedWith .noCurrentTask)) ∧
    (∀ cur t, currentOf s n = some cur → cur ≠ "" → nameOf s n = n →
      Tasks.getTask s cur = some t →
      ∃ s', Tasks.completeCurrentTask s n summary success error now = .ok s' ∧
        currentOf s' n = none ∧
        ∃ t', Tasks.getTask s' cur = some t' ∧
          t'.status = (if success then .completed else .failed) ∧
          t'.status.isTerminal = true ∧
          t'.completedAt = some now ∧
          t'.result = some { summary := summary, success := success, error := error }) := by
  constructor
  · intro hcur
    have h0 : strTruthy (currentOf s n) = false := by rw [hcur]; rfl
    refine ⟨completeCurrentTask_noCurrent s n summary success error now h0, ?_⟩
    simp [Api.completeTask, hsum,
      completeCurrentTask_noCurrent s n (body.summary.getD "") (isNotFalse body.success)
        body.error now h0]
  · intro cur t hcur hne hn ht
    obtain ⟨s', heq, htasks, _, hcur', _⟩ :=
      completeCurrentTask_ok s n summary success error now cur t hn hcur hne ht
    refine ⟨s', heq, hcur', mergeTask t (completeUpdate summary success error now), ?_, ?_, ?_, ?_, ?_⟩
    · simp [Tasks.getTask, htasks, getA_setA_self]
    · simp [mergeTask, completeUpdate, noUpdate]
    · cases success <;> simp [mergeTask, completeUpdate, noUpdate, TaskStatus.isTerminal]
    · simp [mergeTask, completeUpdate, noUpdate, ovr]
    · simp [mergeTask, completeUpdate, noUpdate, ovr]

/-- C8: `updateTask(id, partialUpdates)` fails with the not-found
rejection when no record is stored under the id (the throw happens
before any write, so the error carries no store); otherwise it writes
back exactly the shallow merge of the stored record with the updates,
leaving every field not named in the partial update — and every other
record and all queues — unchanged. -/
theorem updateTask_merge_spec (s : Store) (taskId : String) (u : TaskUpdate) :
    (Tasks.getTask s taskId = none → Tasks.updateTask s taskId u = .error .notFound) ∧
    (∀ t, Tasks.getTask s taskId = some t →
      ∃ s', Tasks.updateTask s taskId u = .ok s' ∧
        s'.queues = s.queues ∧
        Tasks.getTask s' taskId = some (mergeTask t u) ∧
        (∀ k, k ≠ taskId → Tasks.getTask s' k = Tasks.getTask s k) ∧
        (u.status = none → (mergeTask t u).status = t.status) ∧
        (u.title = none → (mergeTask t u).title = t.title) ∧
        (u.description = none → (mergeTask t u).description = t.description) ∧
        (u.assignedTo = none → (mergeTask t u).assignedTo = t.assignedTo) ∧
        (u.assignedBy = none → (mergeTask t u).assignedBy = t.assignedBy) ∧
        (u.id = none → (mergeTask t u).id = t.id) ∧
        (u.createdAt = none → (mergeTask t u).createdAt = t.createdAt) ∧
        (u.startedAt = none → (mergeTask t u).startedAt = t.startedAt) ∧
        (u.completedAt = none → (mergeTask t u).completedAt = t.completedAt) ∧
        (u.sessionId = none → (mergeTask t u).sessionId = t.sessionId) ∧
        (u.result = none → (mergeTask t u).result = t.result)) := by
  refine ⟨updateTask_notFound s taskId u, ?_⟩
  intro t ht
  refine ⟨_, updateTask_found s taskId u t ht, rfl, ?_, ?_, ?_, ?_, ?_, ?_, ?_, ?_, ?_, ?_, ?_, ?_, ?_⟩
  · simp [Tasks.getTask, getA_setA_self]
  · intro k hk
    simp [Tasks.getTask, getA_setA_ne _ _ _ _ hk]
  · intro h; simp [mergeTask, h]
  · intro h; simp [mergeTask, h]
  · intro h; simp [mergeTask, h]
  · intro h; simp [mergeTask, h]
  · intro h; simp [mergeTask, h]
  · intro h; simp [mergeTask, h]
  · intro h; simp [mergeTask, h]
  · intro h; simp [mergeTask, h, ovr]
  · intro h; simp [mergeTask, h, ovr]
  · intro h; simp [mergeTask, h, ovr]
  · intro h; simp [mergeTask, h, ovr]

/-- C9: when the node has no current task and the head of its backlog
is an id with no stored task record, `checkForTasks` still removes the
head, persists `currentTask` as that dangling id, and returns the "No
pending tasks" result: the task registry is untouched (so nothing is
marked `in_progress`) and the persisted state has `currentTask`
referencing a task that does not exist. -/
theorem checkForTasks_dangling_head (s : Store) (self sid taskId : String)
    (rest : List String) (now : Nat)
    (hn : nameOf s self = self)
    (hcur : strTruthy (currentOf s self) = false)
    (hq : queuedOf s self = taskId :: rest)
    (hmiss : Tasks.getTask s taskId = none) :
    ∃ s', Api.checkForTasks s self now sid = .ok (s', .noPending) ∧
      s'.tasks = s.tasks ∧
      currentOf s' self = some taskId ∧
      queuedOf s' self = rest ∧
      Tasks.getTask s' taskId = none := by
  obtain ⟨hres, htasks, hq', hcur', _⟩ := getNextTask_cons s self taskId rest now hn hq
  have hcond : strTruthy (Tasks.getTaskQueue s self now).currentTask = false := by
    rw [getTaskQueue_currentTask]; exact hcur
  have hres2 : (Tasks.getNextTask s self now).2 = none := by rw [hres, hmiss]
  refine ⟨(Tasks.getNextTask s self now).1, ?_, htasks, hcur', hq', ?_⟩
  · simp [Api.checkForTasks, hcond, hres2]
  · rw [Tasks.getTask, htasks]; exact hmiss

/-- C3: per-node FIFO.  Enqueue appends the id at the tail of the
node's `queuedTasks`; dequeue removes exactly the head, persists it as
`currentTask`, and returns its registry record; consequently any
sequence of enqueues onto an initially empty backlog followed by that
many dequeues hands the ids out in exactly the order they went in.
The `nameOf` hypothesis says the stored queue record (if any) carries
the node's own name, which is how every queue writer persists it. -/
theorem queue_fifo (s : Store) (n taskId : String) (ids : List String) (now now' : Nat)
    (hn : nameOf s n = n) :
    queuedOf (Tasks.addTaskToQueue s n taskId now) n = queuedOf s n ++ [taskId] ∧
    (∀ h t, queuedOf s n = h :: t →
      (Tasks.getNextTask s n now).2 = Tasks.getTask s h ∧
      currentOf (Tasks.getNextTask s n now).1 n = some h ∧
      queuedOf (Tasks.getNextTask s n now).1 n = t) ∧
    (queuedOf s n = [] →
      drainIds n now' (enqueueAll s n ids now) ids.length = ids) := by
  refine ⟨addTaskToQueue_queuedOf s n taskId now hn, ?_, ?_⟩
  · intro h t hq
    obtain ⟨h1, _, h3, h4, _⟩ := getNextTask_cons s n h t now hn hq
    exact ⟨h1, h4, h3⟩
  · intro h0
    obtain ⟨he1, he2⟩ := enqueueAll_queuedOf n now ids s hn
    rw [drainIds_take n now' ids.length _ he2, he1, h0, List.nil_append, List.take_length]

/-- C5: a well-formed create request yields a task whose id is the
freshly generated UUID, whose status is `pending`, and whose
`createdAt` is the creation clock (hence at most now); the id is
appended at the tail of the target node's backlog; and the response is
the same whether the best-effort wake of the target succeeds or fails,
because the handler discards the wake outcome. -/
theorem createTask_route_spec (s : Store) (body : Api.CreateBody) (self newId : String)
    (now : Nat)
    (ha : strTruthy body.assignedTo = true)
    (htl : strTruthy body.title = true)
    (hd : strTruthy body.description = true)
    (hn : nameOf s (body.assignedTo.getD "") = body.assignedTo.getD "") :
    ∀ wake wake' : Bool,
      Api.createTask s body self newId now wake = Api.createTask s body self newId now wake' ∧
      ∃ s' task, Api.createTask s body self newId now wake = (s', .created task) ∧
        task.id = newId ∧ task.status = .pending ∧ task.createdAt = now ∧
        task.createdAt ≤ now ∧
        queuedOf s' (body.assignedTo.getD "")
          = queuedOf s (body.assignedTo.getD "") ++ [newId] := by
  intro wake wake'
  refine ⟨rfl, ?_⟩
  have hroute : Api.createTask s body self newId now wake
      = ((Tasks.createTask s (body.assignedTo.getD "") self (body.title.getD "")
          (body.description.getD "") newId now).1,
        .created (Tasks.createTask s (body.assignedTo.getD "") self (body.title.getD "")
          (body.description.getD "") newId now).2) := by
    simp [Api.createTask, ha, htl, hd]
  refine ⟨_, _, hroute, rfl, rfl, rfl, le_refl now, ?_⟩
  have hq := addTaskToQueue_queuedOf
    { s with tasks := setA s.tasks newId (Tasks.createTask s (body.assignedTo.getD "") self
        (body.title.getD "") (body.description.getD "") newId now).2 }
    (body.assignedTo.getD "") newId now hn
  simpa [Tasks.createTask, queuedOf, Tasks.getTaskQueue] using hq

/-- The distribution loop assigns description `j` (counting from the
loop entry index `i`) to `avail[(i + j) % avail.length]`. -/
theorem distributeLoop_map (avail : List String) (assignedBy : String)
    (idGen : Nat → String) (now : Nat) :
    ∀ (descs : List (String × String)) (s : Store) (i : Nat),
      (Api.distributeLoop s descs i avail assignedBy idGen now).2.map
          (fun t => t.assignedTo)
        = (List.range descs.length).map
            (fun j => avail.getD ((i + j) % avail.length) "") := by
  intro descs
  induction descs with
  | nil => intro s i; simp [Api.distributeLoop]
  | cons d rest ih =>
    intro s i
    obtain ⟨title, description⟩ := d
    have harith : ∀ j : Nat, i + 1 + j = i + (j + 1) := fun j => by omega
    simp [Api.distributeLoop, Tasks.createTask, List.range_succ_eq_map, ih,
      Function.comp, harith]

/-- C4: with a non-empty description list, `distributeTasks` fails with
the `NoPeers` client error exactly when the discovered sprite list
excluding self is empty; otherwise it succeeds, assigning description
`i` to `peers[i % peers.length]` (so over peers `[p1, p2]` three
descriptions come out in the `assignedTo` order `p1, p2, p1`, with the
per-peer count summary `{p1: 2, p2: 1}` — the concrete instance is
checked in this theorem's witness), and returns the created tasks
together with their distribution summary. -/
theorem distributeTasks_roundRobin (s : Store) (descs : List (String × String))
    (self : String) (sprites : List String) (idGen : Nat → String) (now : Nat)
    (hne : descs ≠ []) :
    (sprites.filter (fun h => !(h == self)) = [] →
      Api.distributeTasks s descs self sprites idGen now = .error .noPeers) ∧
    (sprites.filter (fun h => !(h == self)) ≠ [] →
      ∃ s' ts, Api.distributeTasks s descs self sprites idGen now
          = .ok (s', ts, Api.summarizeDistribution ts) ∧
        ts.map (fun t => t.assignedTo)
          = (List.range descs.length).map
              (fun j => (sprites.filter (fun h => !(h == self))).getD
                (j % (sprites.filter (fun h => !(h == self))).length) "")) := by
  have hde : descs.isEmpty = false := by
    cases descs with
    | nil => exact absurd rfl hne
    | cons a l => rfl
  constructor
  · intro hav
    simp [Api.distributeTasks, hde, hav]
  · intro hav
    have hlen : ¬ (sprites.filter (fun h => !(h == self))).length = 0 := by
      simpa [List.length_eq_zero] using hav
    refine ⟨(Api.distributeLoop s descs 0 (sprites.filter (fun h => !(h == self)))
        self idGen now).1,
      (Api.distributeLoop s descs 0 (sprites.filter (fun h => !(h == self)))
        self idGen now).2, ?_, ?_⟩
    · simp [Api.distributeTasks, hde, hlen]
    · have := distributeLoop_map (sprites.filter (fun h => !(h == self))) self idGen now
        descs s 0
      simpa using this

/-- C6: for a stored task id, `cancelTask` sets that task's status to
`cancelled`; afterwards no node's `currentTask` is the id and the id is
in no node's backlog, every persisted queue record having had the slot
cleared (when it held the id) and the id filtered from its backlog. -/
theorem cancelTask_spec (s : Store) (taskId : String) (t : DistributedTask)
    (ht : Tasks.getTask s taskId = some t) :
    ∃ s', Api.cancelTask s taskId = .ok s' ∧
      Tasks.getTask s' taskId = some { t with status := .cancelled } ∧
      (∀ n, currentOf s' n ≠ some taskId) ∧
      (∀ n, taskId ∉ queuedOf s' n) ∧
      (∀ n q, getA s.queues n = some q →
        getA s'.queues n = some (Api.cancelQueueFix taskId q)) := by
  have hm : ∀ n, getA (s.queues.map (fun kv => (kv.1, Api.cancelQueueFix taskId kv.2))) n
      = (getA s.queues n).map (Api.cancelQueueFix taskId) :=
    fun n => getA_map (Api.cancelQueueFix taskId) s.queues n
  simp only [Api.cancelTask, ht]
  refine ⟨_, rfl, ?_, ?_, ?_, ?_⟩
  · simp [Tasks.getTask, getA_setA_self]
  · intro n
    cases hg : getA s.queues n with
    | none => simp [currentOf, Tasks.getTaskQueue, hm, hg]
    | some q =>
      simp only [currentOf, Tasks.getTaskQueue, hm, hg]
      by_cases hc : q.currentTask = some taskId <;> simp [Api.cancelQueueFix, hc]
  · intro n
    cases hg : getA s.queues n with
    | none => simp [queuedOf, Tasks.getTaskQueue, hm, hg]
    | some q =>
      simp only [queuedOf, Tasks.getTaskQueue, hm, hg]
      simp [Api.cancelQueueFix, List.mem_filter]
  · intro n q hg
    simp [hm, hg]

/-- C7: for a stored task and a new assignee distinct from the old one,
`reassignTask` removes the id from the old node's backlog, clears the
old node's current slot when it held the id, appends the id at the tail
of the new node's backlog, resets the task's status to `pending`, and
updates `assignedTo` to the new node. -/
theorem reassignTask_spec (s : Store) (taskId newAssignee : String) (t : DistributedTask)
    (now : Nat)
    (ht : Tasks.getTask s taskId = some t)
    (hold : t.assignedTo ≠ newAssignee)
    (hn1 : nameOf s t.assignedTo = t.assignedTo)
    (hn2 : nameOf s newAssignee = newAssignee) :
    ∃ s', Api.reassignTask s taskId newAssignee now = .ok s' ∧
      Tasks.getTask s' taskId
        = some { t with status := .pending, assignedTo := newAssignee } ∧
      queuedOf s' t.assignedTo
        = (queuedOf s t.assignedTo).filter (fun x => !(x == taskId)) ∧
      taskId ∉ queuedOf s' t.assignedTo ∧
      currentOf s' t.assignedTo ≠ some taskId ∧
      queuedOf s' newAssignee = queuedOf s newAssignee ++ [taskId] := by
  have hnn : newAssignee ≠ t.assignedTo := Ne.symm hold
  simp only [Api.reassignTask, ht]
  cases hgo : getA s.queues t.assignedTo with
  | none =>
    cases hgn : getA s.queues newAssignee with
    | none =>
      refine ⟨_, rfl, ?_, ?_, ?_, ?_, ?_⟩ <;>
        simp [Tasks.getTask, Tasks.getTaskQueue, Tasks.addTaskToQueue, Tasks.updateTaskQueue,
          queuedOf, currentOf, hgo, hgn, getA_setA_self,
          getA_setA_ne _ _ _ _ hnn, getA_setA_ne _ _ _ _ hold, List.mem_filter]
    | some qn =>
      have hsn : qn.spriteName = newAssignee := by
        simpa [nameOf, Tasks.getTaskQueue, hgn] using hn2
      refine ⟨_, rfl, ?_, ?_, ?_, ?_, ?_⟩ <;>
        simp [Tasks.getTask, Tasks.getTaskQueue, Tasks.addTaskToQueue, Tasks.updateTaskQueue,
          queuedOf, currentOf, hgo, hgn, hsn, getA_setA_self,
          getA_setA_ne _ _ _ _ hnn, getA_setA_ne _ _ _ _ hold, List.mem_filter]
  | some qo =>
    have hso : qo.spriteName = t.assignedTo := by
      simpa [nameOf, Tasks.getTaskQueue, hgo] using hn1
    cases hgn : getA s.queues newAssignee with
    | none =>
      by_cases hcc : qo.currentTask = some taskId <;>
        (refine ⟨_, rfl, ?_, ?_, ?_, ?_, ?_⟩ <;>
          simp [Tasks.getTask, Tasks.getTaskQueue, Tasks.addTaskToQueue, Tasks.updateTaskQueue,
            queuedOf, currentOf, hgo, hgn, hso, hcc, getA_setA_self,
            getA_setA_ne _ _ _ _ hnn, getA_setA_ne _ _ _ _ hold, List.mem_filter])
    | some qn =>
      have hsn : qn.spriteName = newAssignee := by
        simpa [nameOf, Tasks.getTaskQueue, hgn] using hn2
      by_cases hcc : qo.currentTask = some taskId <;>
        (refine ⟨_, rfl, ?_, ?_, ?_, ?_, ?_⟩ <;>
          simp [Tasks.getTask, Tasks.getTaskQueue, Tasks.addTaskToQueue, Tasks.updateTaskQueue,
            queuedOf, currentOf, hgo, hgn, hso, hsn, hcc, getA_setA_self,
            getA_setA_ne _ _ _ _ hnn, getA_setA_ne _ _ _ _ hold, List.mem_filter])

/-- C10: the complete route treats the success flag as true unless it is
exactly the JSON boolean `false` (`success !== false`): for every
request whose `success` field is absent (`undefined`), `null`, a string,
a number, or `true`, the node's current task ends `completed` with
`result.success = true`; only `success === false` yields `failed` with
`result.success = false`.  Hypotheses: the summary is present, the node
has a current task `cur` (a non-empty id of a stored record, not also
sitting in the backlog), the stored queue record carries the node's
name, and stored task records carry their own key as `id` (all
invariants every writer maintains). -/
theorem completeTask_success_flag (s : Store) (self : String) (body : Api.CompleteBody)
    (now : Nat) (sid cur : String) (t : DistributedTask)
    (hsum : strTruthy body.summary = true)
    (hn : nameOf s self = self)
    (hcur : currentOf s self = some cur) (hne : cur ≠ "")
    (ht : Tasks.getTask s cur = some t)
    (hnq : cur ∉ queuedOf s self)
    (hwf : ∀ k u, Tasks.getTask s k = some u → u.id = k) :
    ∃ s' r, Api.completeTask s self body now sid = (s', r) ∧
      ∃ t', Tasks.getTask s' cur = some t' ∧
        t'.completedAt = some now ∧
        (body.success ≠ JsonValue.bool false →
          t'.status = .completed ∧
          t'.result = some { summary := body.summary.getD "", success := true, error := body.error }) ∧
        (body.success = JsonValue.bool false →
          t'.status = .failed ∧
          t'.result = some { summary := body.summary.getD "", success := false, error := body.error }) := by
  have hstat : (mergeTask t (completeUpdate (body.summary.getD "") (isNotFalse body.success)
        body.error now)).status
      = (if isNotFalse body.success then TaskStatus.completed else TaskStatus.failed) := by
    simp [mergeTask, completeUpdate, noUpdate]
  have hresv : (mergeTask t (completeUpdate (body.summary.getD "") (isNotFalse body.success)
        body.error now)).result
      = some { summary := body.summary.getD "", success := isNotFalse body.success, error := body.error } := by
    simp [mergeTask, completeUpdate, noUpdate, ovr]
  have hca : (mergeTask t (completeUpdate (body.summary.getD "") (isNotFalse body.success)
        body.error now)).completedAt = some now := by
    simp [mergeTask, completeUpdate, noUpdate, ovr]
  have hflag1 : body.success ≠ JsonValue.bool false → isNotFalse body.success = true := by
    intro hv
    cases hb : isNotFalse body.success
    · exact absurd ((isNotFalse_eq_false_iff body.success).mp hb) hv
    · rfl
  have hflag2 : body.success = JsonValue.bool false → isNotFalse body.success = false :=
    fun hv => (isNotFalse_eq_false_iff body.success).mpr hv
  have hfinal : ∀ s' : Store,
      Tasks.getTask s' cur = some (mergeTask t (completeUpdate (body.summary.getD "")
        (isNotFalse body.success) body.error now)) →
      ∃ t', Tasks.getTask s' cur = some t' ∧
        t'.completedAt = some now ∧
        (body.success ≠ JsonValue.bool false →
          t'.status = .completed ∧
          t'.result = some { summary := body.summary.getD "", success := true, error := body.error }) ∧
        (body.success = JsonValue.bool false →
          t'.status = .failed ∧
          t'.result = some { summary := body.summary.getD "", success := false, error := body.error }) := by
    intro s' hg
    refine ⟨_, hg, hca, ?_, ?_⟩
    · intro hv
      constructor
      · rw [hstat, hflag1 hv]; simp
      · rw [hresv, hflag1 hv]
    · intro hv
      constructor
      · rw [hstat, hflag2 hv]; simp
      · rw [hresv, hflag2 hv]
  obtain ⟨s1, heq1, htasks1, hq1, hcur1, hname1⟩ :=
    completeCurrentTask_ok s self (body.summary.getD "") (isNotFalse body.success)
      body.error now cur t hn hcur hne ht
  have hgetcur1 : Tasks.getTask s1 cur
      = some (mergeTask t (completeUpdate (body.summary.getD "") (isNotFalse body.success)
          body.error now)) := by
    rw [Tasks.getTask, htasks1]; exact getA_setA_self _ _ _
  cases hq0 : queuedOf s self with
  | nil =>
    have hq1' : queuedOf s1 self = [] := by rw [hq1, hq0]
    have hnext := getNextTask_empty s1 self now hq1'
    refine ⟨s1, .completedNoMore, ?_, hfinal s1 hgetcur1⟩
    simp [Api.completeTask, hsum, heq1, hnext]
  | cons h tl =>
    have hhc : h ≠ cur := by
      intro e
      rw [hq0] at hnq
      exact hnq (by rw [← e]; exact List.mem_cons_self _ _)
    have hq1' : queuedOf s1 self = h :: tl := by rw [hq1, hq0]
    obtain ⟨hres2, htasks2, _, _, _⟩ := getNextTask_cons s1 self h tl now hname1 hq1'
    rcases hgn : Tasks.getNextTask s1 self now with ⟨ps, pres⟩
    rw [hgn] at hres2 htasks2
    have hres2' : pres = Tasks.getTask s1 h := hres2
    have htasks2' : ps.tasks = s1.tasks := htasks2
    have hsh : Tasks.getTask s1 h = Tasks.getTask s h := by
      rw [Tasks.getTask, Tasks.getTask, htasks1, getA_setA_ne _ _ _ _ hhc]
    have hgcur_ps : Tasks.getTask ps cur = some (mergeTask t (completeUpdate
        (body.summary.getD "") (isNotFalse body.success) body.error now)) := by
      rw [Tasks.getTask, htasks2']; exact hgetcur1
    cases hth : Tasks.getTask s h with
    | none =>
      have hpres : pres = none := by rw [hres2', hsh, hth]
      refine ⟨ps, .completedNoMore, ?_, hfinal ps hgcur_ps⟩
      simp [Api.completeTask, hsum, heq1, hgn, hpres]
    | some tnext =>
      have hid : tnext.id = h := hwf h tnext hth
      have hpres : pres = some tnext := by rw [hres2', hsh, hth]
      have hcne : cur ≠ tnext.id := by rw [hid]; exact Ne.symm hhc
      have hg1 : Tasks.getTask ps tnext.id = some tnext := by
        rw [hid]
        show Tasks.getTask ps h = some tnext
        rw [Tasks.getTask, htasks2']
        show Tasks.getTask s1 h = some tnext
        rw [hsh, hth]
      cases hu1 : Tasks.updateTask ps tnext.id
          { noUpdate with status := some TaskStatus.in_progress, startedAt := some now } with
      | error e =>
        have hu1' := hu1
        rw [updateTask_found ps tnext.id _ tnext hg1] at hu1'
        simp at hu1'
      | ok s3 =>
        have hu1' := hu1
        rw [updateTask_found ps tnext.id _ tnext hg1] at hu1'
        injection hu1' with hinj1
        have hs3 : s3.tasks = setA ps.tasks tnext.id (mergeTask tnext
            { noUpdate with status := some TaskStatus.in_progress, startedAt := some now }) := by
          rw [← hinj1]
        have hg2 : Tasks.getTask s3 tnext.id = some (mergeTask tnext
            { noUpdate with status := some TaskStatus.in_progress, startedAt := some now }) := by
          rw [Tasks.getTask, hs3]; exact getA_setA_self _ _ _
        cases hu2 : Tasks.updateTask s3 tnext.id { noUpdate with sessionId := some sid } with
        | error e =>
          have hu2' := hu2
          rw [updateTask_found s3 tnext.id _ _ hg2] at hu2'
          simp at hu2'
        | ok s4 =>
          have hu2' := hu2
          rw [updateTask_found s3 tnext.id _ _ hg2] at hu2'
          injection hu2' with hinj2
          have hs4 : s4.tasks = setA s3.tasks tnext.id (mergeTask (mergeTask tnext
              { noUpdate with status := some TaskStatus.in_progress, startedAt := some now })
              { noUpdate with sessionId := some sid }) := by
            rw [← hinj2]
          have hgcur4 : Tasks.getTask s4 cur = some (mergeTask t (completeUpdate
              (body.summary.getD "") (isNotFalse body.success) body.error now)) := by
            rw [Tasks.getTask, hs4, getA_setA_ne _ _ _ _ hcne, hs3,
              getA_setA_ne _ _ _ _ hcne]
            exact hgcur_ps
          refine ⟨s4, .completedStartedNext tnext sid, ?_, hfinal s4 hgcur4⟩
          simp [Api.completeTask, hsum, heq1, hgn, hpres, hu1, hu2]

/-! ### Concrete fixtures and witnesses -/

/-- A task currently being worked by node `a`. -/
def taskT1 : DistributedTask :=
  { id := "t1", assignedTo := "a", assignedBy := "b", status := .in_progress,
    title := "T", description := "D", createdAt := 0, startedAt := some 1,
    completedAt := none, sessionId := none, result := none }

/-- A pending task queued on node `a`. -/
def taskT2 : DistributedTask :=
  { id := "t2", assignedTo := "a", assignedBy := "b", status := .pending,
    title := "U", description := "E", createdAt := 0, startedAt := none,
    completedAt := none, sessionId := none, result := none }

/-- Node `a`'s queue: working `t1`, backlog `[t2]`. -/
def queueA : TaskQueue :=
  { spriteName := "a", queuedTasks := ["t2"], currentTask := some "t1", lastUpdated := 0 }

/-- A small populated store. -/
def storeW : Store :=
  { tasks := [("t1", taskT1), ("t2", taskT2)], queues := [("a", queueA)] }

/-- In `storeW`, every stored task record carries its own key as `id`. -/
theorem storeW_id_keys : ∀ k u, Tasks.getTask storeW k = some u → u.id = k := by
  intro k u h
  by_cases h1 : ("t1" : String) = k
  · subst h1
    have hu : u = taskT1 := by simpa [Tasks.getTask, storeW, getA] using h.symm
    rw [hu]; rfl
  · by_cases h2 : ("t2" : String) = k
    · subst h2
      have hu : u = taskT2 := by simpa [Tasks.getTask, storeW, getA, h1] using h.symm
      rw [hu]; rfl
    · simp [Tasks.getTask, storeW, getA, h1, h2] at h

/-- Witness for C1: node `a` of `storeW` is mid-task on `t1`; the check
route reports "already working on `t1`" and returns the store
unchanged, whatever the clock or session-id supply. -/
theorem checkForTasks_alreadyWorking_witness :
    currentOf storeW "a" = some "t1" ∧
    Api.checkForTasks storeW "a" 5 "sid" = .ok (storeW, .alreadyWorking "t1") :=
  ⟨by decide, checkForTasks_alreadyWorking storeW "a" "sid" "t1" 5 (by decide) (by decide)⟩

/-- Complete-route body with a truthy summary and `success: true`. -/
def bodyDone : Api.CompleteBody :=
  { summary := some "done", success := .bool true, error := none }

/-- Witness for C2: at `storeW` node `a` (current task `t1`, a stored
record), completion succeeds and the no-current branch is the stated
rejection. -/
theorem completeCurrentTask_spec_witness :
    (currentOf storeW "a" = some "t1" ∧ Tasks.getTask storeW "t1" = some taskT1) ∧
    ((currentOf storeW "a" = none →
      Tasks.completeCurrentTask storeW "a" "done" true none 7 = .error .noCurrentTask ∧
      Api.completeTask storeW "a" bodyDone 7 "s1" = (storeW, .failedWith .noCurrentTask)) ∧
    (∀ cur t, currentOf storeW "a" = some cur → cur ≠ "" → nameOf storeW "a" = "a" →
      Tasks.getTask storeW cur = some t →
      ∃ s', Tasks.completeCurrentTask storeW "a" "done" true none 7 = .ok s' ∧
        currentOf s' "a" = none ∧
        ∃ t', Tasks.getTask s' cur = some t' ∧
          t'.status = (if true then .completed else .failed) ∧
          t'.status.isTerminal = true ∧
          t'.completedAt = some 7 ∧
          t'.result = some { summary := "done", success := true, error := none })) :=
  ⟨by decide, completeCurrentTask_spec storeW "a" "done" true none 7 "s1" bodyDone (by decide)⟩

/-- Witness for C3: node `c` of `storeW` has an empty backlog; three
enqueued ids drain back out in order. -/
theorem queue_fifo_witness :
    (nameOf storeW "c" = "c" ∧ queuedOf storeW "c" = []) ∧
    (queuedOf (Tasks.addTaskToQueue storeW "c" "w" 1) "c" = queuedOf storeW "c" ++ ["w"] ∧
    (∀ h t, queuedOf storeW "c" = h :: t →
      (Tasks.getNextTask storeW "c" 1).2 = Tasks.getTask storeW h ∧
      currentOf (Tasks.getNextTask storeW "c" 1).1 "c" = some h ∧
      queuedOf (Tasks.getNextTask storeW "c" 1).1 "c" = t) ∧
    (queuedOf storeW "c" = [] →
      drainIds "c" 2 (enqueueAll storeW "c" ["x", "y", "z"] 1) 3 = ["x", "y", "z"])) :=
  ⟨by decide, queue_fifo storeW "c" "w" ["x", "y", "z"] 1 2 (by decide)⟩

/-- Three distributable descriptions. -/
def descsW : List (String × String) := [("T1", "D1"), ("T2", "D2"), ("T3", "D3")]

/-- A deterministic id supply for the distribution witness. -/
def idGenW : Nat → String := fun i => toString i

/-- Witness for C4: three descriptions over peers `[p1, p2]` (self
excluded) come out assigned `p1, p2, p1` with counts `{p1: 2, p2: 1}`. -/
theorem distributeTasks_roundRobin_witness :
    ((Api.distributeTasks storeW descsW "me" ["p1", "p2"] idGenW 0).toOption.map
        (fun r => (r.2.1.map (fun t => t.assignedTo), r.2.2))
      = some (["p1", "p2", "p1"], [("p1", 2), ("p2", 1)])) ∧
    ((["p1", "p2"].filter (fun h => !(h == "me")) = [] →
      Api.distributeTasks storeW descsW "me" ["p1", "p2"] idGenW 0 = .error .noPeers) ∧
    (["p1", "p2"].filter (fun h => !(h == "me")) ≠ [] →
      ∃ s' ts, Api.distributeTasks storeW descsW "me" ["p1", "p2"] idGenW 0
          = .ok (s', ts, Api.summarizeDistribution ts) ∧
        ts.map (fun t => t.assignedTo)
          = (List.range descsW.length).map
              (fun j => (["p1", "p2"].filter (fun h => !(h == "me"))).getD
                (j % (["p1", "p2"].filter (fun h => !(h == "me"))).length) ""))) :=
  ⟨by decide, distributeTasks_roundRobin storeW descsW "me" ["p1", "p2"] idGenW 0 (by decide)⟩

/-- Create-route body naming node `c`. -/
def bodyCreate : Api.CreateBody :=
  { assignedTo := some "c", title := some "T", description := some "D" }

/-- Witness for C5: creating a task for node `c` of `storeW` yields a
pending record with the fresh id appended to `c`'s backlog, and a
failed wake produces the identical response. -/
theorem createTask_route_spec_witness :
    Api.createTask storeW bodyCreate "me" "fresh" 9 true
      = Api.createTask storeW bodyCreate "me" "fresh" 9 false ∧
    ∃ s' task, Api.createTask storeW bodyCreate "me" "fresh" 9 true = (s', .created task) ∧
      task.id = "fresh" ∧ task.status = .pending ∧ task.createdAt = 9 ∧
      task.createdAt ≤ 9 ∧
      queuedOf s' (bodyCreate.assignedTo.getD "")
        = queuedOf storeW (bodyCreate.assignedTo.getD "") ++ ["fresh"] :=
  createTask_route_spec storeW bodyCreate "me" "fresh" 9 (by decide) (by decide) (by decide)
    (by decide) true false

/-- Witness for C6: cancelling the queued task `t2` of `storeW` marks
it `cancelled` and purges it from every queue. -/
theorem cancelTask_spec_witness :
    (Tasks.getTask storeW "t2" = some taskT2) ∧
    (∃ s', Api.cancelTask storeW "t2" = .ok s' ∧
      Tasks.getTask s' "t2" = some { taskT2 with status := .cancelled } ∧
      (∀ n, currentOf s' n ≠ some "t2") ∧
      (∀ n, "t2" ∉ queuedOf s' n) ∧
      (∀ n q, getA storeW.queues n = some q →
        getA s'.queues n = some (Api.cancelQueueFix "t2" q))) :=
  ⟨by decide, cancelTask_spec storeW "t2" taskT2 (by decide)⟩

/-- Witness for C7: reassigning `t2` from node `a` to node `c` in
`storeW` removes it from `a`'s backlog, appends it to `c`'s, and resets
it to pending under the new owner. -/
theorem reassignTask_spec_witness :
    (Tasks.getTask storeW "t2" = some taskT2 ∧ taskT2.assignedTo ≠ "c") ∧
    (∃ s', Api.reassignTask storeW "t2" "c" 3 = .ok s' ∧
      Tasks.getTask s' "t2"
        = some { taskT2 with status := .pending, assignedTo := "c" } ∧
      queuedOf s' taskT2.assignedTo
        = (queuedOf storeW taskT2.assignedTo).filter (fun x => !(x == "t2")) ∧
      "t2" ∉ queuedOf s' taskT2.assignedTo ∧
      currentOf s' taskT2.assignedTo ≠ some "t2" ∧
      queuedOf s' "c" = queuedOf storeW "c" ++ ["t2"]) :=
  ⟨by decide, reassignTask_spec storeW "t2" "c" taskT2 3 (by decide) (by decide) (by decide)
    (by decide)⟩

/-- A partial update naming only `title`. -/
def updW : TaskUpdate := { noUpdate with title := some "X" }

/-- Witness for C8: updating stored task `t1` of `storeW` with a
title-only partial update merges shallowly; an absent id is rejected
not-found. -/
theorem updateTask_merge_spec_witness :
    (Tasks.getTask storeW "t1" = some taskT1) ∧
    ((Tasks.getTask storeW "t1" = none → Tasks.updateTask storeW "t1" updW = .error .notFound) ∧
    (∀ t, Tasks.getTask storeW "t1" = some t →
      ∃ s', Tasks.updateTask storeW "t1" updW = .ok s' ∧
        s'.queues = storeW.queues ∧
        Tasks.getTask s' "t1" = some (mergeTask t updW) ∧
        (∀ k, k ≠ "t1" → Tasks.getTask s' k = Tasks.getTask storeW k) ∧
        (updW.status = none → (mergeTask t updW).status = t.status) ∧
        (updW.title = none → (mergeTask t updW).title = t.title) ∧
        (updW.description = none → (mergeTask t updW).description = t.description) ∧
        (updW.assignedTo = none → (mergeTask t updW).assignedTo = t.assignedTo) ∧
        (updW.assignedBy = none → (mergeTask t updW).assignedBy = t.assignedBy) ∧
        (updW.id = none → (mergeTask t updW).id = t.id) ∧
        (updW.createdAt = none → (mergeTask t updW).createdAt = t.createdAt) ∧
        (updW.startedAt = none → (mergeTask t updW).startedAt = t.startedAt) ∧
        (updW.completedAt = none → (mergeTask t updW).completedAt = t.completedAt) ∧
        (updW.sessionId = none → (mergeTask t updW).sessionId = t.sessionId) ∧
        (updW.result = none → (mergeTask t updW).result = t.result))) :=
  ⟨by decide, updateTask_merge_spec storeW "t1" updW⟩

/-- Node `d`'s queue: idle, backlog holding an id with no stored record. -/
def queueD : TaskQueue :=
  { spriteName := "d", queuedTasks := ["ghost"], currentTask := none, lastUpdated := 0 }

/-- A store whose only queue dangles. -/
def storeDangling : Store := { tasks := [], queues := [("d", queueD)] }

/-- Witness for C9: checking node `d` of `storeDangling` dequeues the
ghost id, persists it as `currentTask`, and reports no pending tasks. -/
theorem checkForTasks_dangling_head_witness :
    (queuedOf storeDangling "d" = ["ghost"] ∧ Tasks.getTask storeDangling "ghost" = none) ∧
    (∃ s', Api.checkForTasks storeDangling "d" 4 "sid" = .ok (s', .noPending) ∧
      s'.tasks = storeDangling.tasks ∧
      currentOf s' "d" = some "ghost" ∧
      queuedOf s' "d" = [] ∧
      Tasks.getTask s' "ghost" = none) :=
  ⟨by decide, checkForTasks_dangling_head storeDangling "d" "sid" "ghost" [] 4 (by decide)
    (by decide) (by decide) (by decide)⟩

/-- Complete-route body whose `success` field is the number `1` — not
the boolean `false`, so the flag counts as success. -/
def bodyNum : Api.CompleteBody :=
  { summary := some "ok", success := .num 1, error := none }

/-- Witness for C10: completing node `a`'s current task `t1` of
`storeW` with `success: 1` ends it `completed` with
`result.success = true`. -/
theorem completeTask_success_flag_witness :
    (bodyNum.success ≠ JsonValue.bool false ∧ currentOf storeW "a" = some "t1") ∧
    (∃ s' r, Api.completeTask storeW "a" bodyNum 7 "s1" = (s', r) ∧
      ∃ t', Tasks.getTask s' "t1" = some t' ∧
        t'.completedAt = some 7 ∧
        (bodyNum.success ≠ JsonValue.bool false →
          t'.status = .completed ∧
          t'.result = some { summary := bodyNum.summary.getD "", success := true, error := bodyNum.error }) ∧
        (bodyNum.success = JsonValue.bool false →
          t'.status = .failed ∧
          t'.result = some { summary := bodyNum.summary.getD "", success := false, error := bodyNum.error })) :=
  ⟨by decide, completeTask_success_flag storeW "a" bodyNum 7 "s1" "t1" taskT1 (by decide)
    (by decide) (by decide) (by decide) (by decide) (by decide) storeW_id_keys⟩
